import Mathlib

/-!
Shallow embedding, in Lean 4, of the slash-command activation and execution
subsystem of the `docground` live markdown editor.

Embedded source files:
* `src/editor/slashCommands/slashCommand.config.ts` — the command registry
  (`SlashCommandItem`, `slashCommands`).
* `src/components/liveMarkdown/editor.tsx` — the menu state owned by
  `LiveMarkdownEditor` (`isSlashMenuOpen`, `slashMenuQuery`, `slashMenuRange`,
  `slashMenuPosition`, `slashMenuItems`), the candidate filter in
  `openSlashMenu` / the recomputation effect, `closeSlashMenuAndFocusEditor`
  and `handleCommandSelection`.
* `src/editor/slashCommands/slashCommandMenu.tsx` — the ArrowUp/ArrowDown
  selection-index arithmetic, the auto-close effect and the
  selected-index-reset effect.
* `src/editor/slashCommands/slashCommandInputRule.ts` — the trigger input
  rule built from the regex `(?:^|\s)\/([\w]*)$` and its activation handler.

Conventions: documents and text windows are `List Char` indexed from 0;
JavaScript's `NaN` result of `x % 0` is modelled by `Option Nat` with `none`
standing for `NaN`; a thrown JavaScript exception is modelled by an explicit
`threw` flag on the result of the execution protocol, and code that runs
after an uncaught throw in the source simply does not run in the model.
-/

/-- JavaScript's `\w` character class: exactly `[A-Za-z0-9_]`.
(`Char.isAlpha`/`Char.isDigit` are the corresponding ASCII-only tests.) -/
def wordChar (c : Char) : Bool :=
  c.isAlpha || c.isDigit || c = '_'

/-- The characters matched by JavaScript's `\s` character class
(whitespace and line terminators), enumerated. -/
def jsWhitespaceChars : List Char :=
  [' ', '\t', '\n', '\r', '\x0b', '\x0c',
   '\u00A0', '\u1680',
   '\u2000', '\u2001', '\u2002', '\u2003', '\u2004', '\u2005',
   '\u2006', '\u2007', '\u2008', '\u2009', '\u200A',
   '\u2028', '\u2029', '\u202F', '\u205F', '\u3000', '\uFEFF']

/-- JavaScript's `\s` test on a single character. -/
def jsWhitespaceChar (c : Char) : Bool :=
  jsWhitespaceChars.contains c

/-- `s.toLowerCase()` of the source, on the character list of a string. -/
def lowerStr (s : String) : List Char :=
  s.toList.map Char.toLower

/-- `s.toLowerCase().includes(q.toLowerCase())` of the source:
case-insensitive substring test. -/
def isSubstrCI (q s : String) : Bool :=
  decide (lowerStr q <:+: lowerStr s)

/-- `SlashCommandItem` of `slashCommand.config.ts` (the `command` mutation
function is represented by the descriptor's `id`, which the execution-trace
model records when the command runs; `icon` is omitted as pure UI data).
The optional `aliases?` array is modelled as a list, `[]` standing for the
absent array (on which `aliases?.some(...)` is falsy, exactly as `[].any`). -/
structure SlashCommandItem where
  id : String
  title : String
  aliases : List String
  description : String
deriving DecidableEq, Repr

/-- The `heading1` descriptor of `slashCommand.config.ts`. -/
def heading1 : SlashCommandItem :=
  { id := "heading1", title := "Heading 1", aliases := ["h1"],
    description := "Large section heading" }

/-- The `heading2` descriptor. -/
def heading2 : SlashCommandItem :=
  { id := "heading2", title := "Heading 2", aliases := ["h2"],
    description := "Medium section heading" }

/-- The `heading3` descriptor. -/
def heading3 : SlashCommandItem :=
  { id := "heading3", title := "Heading 3", aliases := ["h3"],
    description := "Small section heading" }

/-- The `bulletList` descriptor. -/
def bulletList : SlashCommandItem :=
  { id := "bulletList", title := "Bulleted list", aliases := ["ul", "list"],
    description := "Create a simple bulleted list" }

/-- The `numberedList` descriptor. -/
def numberedList : SlashCommandItem :=
  { id := "numberedList", title := "Numbered list", aliases := ["ol"],
    description := "Create a list with numbering" }

/-- The `taskList` descriptor. -/
def taskList : SlashCommandItem :=
  { id := "taskList", title := "Task list", aliases := ["todo", "task"],
    description := "Track tasks with a checklist" }

/-- The `blockquote` descriptor. -/
def blockquote : SlashCommandItem :=
  { id := "blockquote", title := "Blockquote", aliases := ["quote"],
    description := "Capture a quote" }

/-- The `codeBlock` descriptor. -/
def codeBlock : SlashCommandItem :=
  { id := "codeBlock", title := "Code block", aliases := ["code"],
    description := "Capture a code snippet" }

/-- The `horizontalRule` descriptor. -/
def horizontalRule : SlashCommandItem :=
  { id := "horizontalRule", title := "Horizontal rule", aliases := ["hr", "divider"],
    description := "Visually divide sections" }

/-- The `table` descriptor. -/
def tableItem : SlashCommandItem :=
  { id := "table", title := "Table", aliases := ["tbl"],
    description := "Create a simple table" }

/-- The `paragraph` descriptor. -/
def paragraphItem : SlashCommandItem :=
  { id := "paragraph", title := "Paragraph", aliases := ["p", "text"],
    description := "Plain text" }

/-- The `slashCommands` registry of `slashCommand.config.ts`, in source order. -/
def slashCommands : List SlashCommandItem :=
  [heading1, heading2, heading3, bulletList, numberedList, taskList,
   blockquote, codeBlock, horizontalRule, tableItem, paragraphItem]

/-- The match predicate of the candidate filter in `editor.tsx`
(both in `openSlashMenu` and in the recomputation effect):
`item.title.toLowerCase().includes(query.toLowerCase()) ||
 item.aliases?.some(alias => alias.toLowerCase().includes(query.toLowerCase()))`. -/
def matchesItem (query : String) (item : SlashCommandItem) : Bool :=
  isSubstrCI query item.title || item.aliases.any (fun a => isSubstrCI query a)

/-- The candidate filter of `editor.tsx`:
`registry.filter(...).slice(0, 10)`. -/
def filterCommands (registry : List SlashCommandItem) (query : String) :
    List SlashCommandItem :=
  (registry.filter (matchesItem query)).take 10

/-- TipTap's `Range` as stored in `slashMenuRange` (`from`/`to` are Lean
keywords, hence `fromPos`/`toPos`). -/
structure MenuRange where
  fromPos : Nat
  toPos : Nat
deriving DecidableEq, Repr

/-- The `slashMenuPosition` payload `{ top, left, height }`. -/
structure MenuPosition where
  top : Int
  left : Int
  height : Int
deriving DecidableEq, Repr

/-- The five `useState` values of `LiveMarkdownEditor` that make up the menu
state: `isSlashMenuOpen`, `slashMenuQuery`, `slashMenuRange`,
`slashMenuPosition`, `slashMenuItems`. -/
structure MenuState where
  isSlashMenuOpen : Bool
  slashMenuQuery : String
  slashMenuRange : Option MenuRange
  slashMenuPosition : Option MenuPosition
  slashMenuItems : List SlashCommandItem
deriving DecidableEq, Repr

/-- The initial values of the five `useState` hooks:
`false`, `""`, `null`, `null`, `[]`. -/
def initialMenuState : MenuState :=
  { isSlashMenuOpen := false, slashMenuQuery := "", slashMenuRange := none,
    slashMenuPosition := none, slashMenuItems := [] }

/-- `openSlashMenu` of `editor.tsx`: sets all five states from the activation
props and recomputes the filtered items (the prior state is not consulted). -/
def openSlashMenu (q : String) (r : MenuRange) (p : MenuPosition) : MenuState :=
  { isSlashMenuOpen := true, slashMenuQuery := q, slashMenuRange := some r,
    slashMenuPosition := some p,
    slashMenuItems := filterCommands slashCommands q }

/-- `closeSlashMenuAndFocusEditor` of `editor.tsx`: early-returns when the
menu is not open (`if (!isSlashMenuOpenRef.current) return`), otherwise
resets all five states to their initial values (and schedules an editor
focus, recorded separately in the execution trace). -/
def closeSlashMenuAndFocusEditor (st : MenuState) : MenuState :=
  if st.isSlashMenuOpen = false then st else initialMenuState

/-- The events the execution protocol emits against the editor, in order:
document mutations (`deleteRange`, then the selected descriptor's `command`,
identified by its id), the menu-state reset, and the scheduled refocus. -/
inductive ExecEvent where
  | deleteRange (fromPos toPos : Nat)
  | applyCommand (id : String) (fromPos toPos : Nat)
  | closeMenu
  | focusEditor
deriving DecidableEq, Repr

/-- The events `closeSlashMenuAndFocusEditor` performs: nothing when the menu
is closed (early return), otherwise the state reset followed by the
`setTimeout(() => editor.focus(), 0)` refocus. -/
def closeTrace (st : MenuState) : List ExecEvent :=
  if st.isSlashMenuOpen then [ExecEvent.closeMenu, ExecEvent.focusEditor] else []

/-- `doc.textBetween(a, b)` of ProseMirror on a plain-text document:
the characters at positions `a ≤ i < b`. -/
def textBetween (doc : List Char) (a b : Nat) : List Char :=
  (doc.drop a).take (b - a)

/-- Result of one run of the execution protocol: the final menu state, the
final document text, the ordered event trace, and whether a JavaScript
exception escaped (`handleCommandSelection` has no `try`/`catch`, so code
after a throwing step does not run). -/
structure ExecResult where
  state : MenuState
  doc : List Char
  trace : List ExecEvent
  threw : Bool
deriving DecidableEq, Repr

/-- `handleCommandSelection` of `editor.tsx`.  With an editor instance and a
non-null stored range it: reads `textBetween(from - 1, to)` and extends the
range left by one if that text starts with `'/'`; deletes the extended range
(`chain().focus().deleteRange(fullRange).run()`; the chain's leading `focus()`
precedes every mutation and is not itself a document mutation, so it is not
recorded); invokes `item.command({editor, range: fullRange})`; then calls
`closeSlashMenuAndFocusEditor()`.  Without an editor or range it only calls
`closeSlashMenuAndFocusEditor()`.  `deleteThrows`/`applyThrows` say whether
the delete step or the descriptor's command throws; a throw propagates, so
nothing after the throwing step runs.  (The source computes `fullRange.from -
1` in JavaScript arithmetic; real ProseMirror ranges have `from ≥ 1`, which
theorems about this model assume where the distinction matters.) -/
def handleCommandSelection (st : MenuState) (editorAvailable : Bool)
    (doc : List Char) (deleteThrows applyThrows : Bool)
    (item : SlashCommandItem) : ExecResult :=
  match st.slashMenuRange, editorAvailable with
  | some r, true =>
      let textAtRange := textBetween doc (r.fromPos - 1) r.toPos
      let fullFrom := if textAtRange.head? = some '/' then r.fromPos - 1 else r.fromPos
      if deleteThrows then
        { state := st, doc := doc, trace := [], threw := true }
      else
        let doc2 := doc.take fullFrom ++ doc.drop r.toPos
        if applyThrows then
          { state := st, doc := doc2,
            trace := [ExecEvent.deleteRange fullFrom r.toPos], threw := true }
        else
          { state := closeSlashMenuAndFocusEditor st, doc := doc2,
            trace := [ExecEvent.deleteRange fullFrom r.toPos,
                      ExecEvent.applyCommand item.id fullFrom r.toPos]
                     ++ closeTrace st,
            threw := false }
  | _, _ =>
      { state := closeSlashMenuAndFocusEditor st, doc := doc,
        trace := closeTrace st, threw := false }

/-- The deletion start position the execution protocol ends up using, stated
the way the claim describes it: `range.from`, extended left by one exactly
when the character immediately preceding `range.from` in the document is the
trigger character `'/'`. -/
def extendedFrom (doc : List Char) (r : MenuRange) : Nat :=
  if doc[r.fromPos - 1]? = some '/' then r.fromPos - 1 else r.fromPos

/-- The auto-close effect of `slashCommandMenu.tsx`:
`if (items.length === 0 && prevItemsLengthRef.current > 0) onClose()`,
where `onClose` is `closeSlashMenuAndFocusEditor`. -/
def menuAutoCloseEffect (prevItemsLength : Nat) (st : MenuState) : MenuState :=
  if st.slashMenuItems.length = 0 ∧ 0 < prevItemsLength then
    closeSlashMenuAndFocusEditor st
  else st

/-- One keystroke while the trigger is live: the input rule re-fires and
calls `openSlashMenu` with the new query/range/position, the recomputation
effect refilters the items, and then the menu's auto-close effect compares
the new item count against the previous one. -/
def updateQueryStep (st : MenuState) (q : String) (r : MenuRange)
    (p : MenuPosition) : MenuState :=
  menuAutoCloseEffect st.slashMenuItems.length (openSlashMenu q r p)

/-- The ArrowDown branch of `SlashCommandMenu`'s `onKeyDown`:
`setSelectedIndex(prev => (prev + 1) % items.length)`.  JavaScript's
`x % 0` is `NaN`, modelled as `none`; there is no emptiness guard in the
source. -/
def arrowDownIndex (itemsLength prevIndex : Nat) : Option Nat :=
  if itemsLength = 0 then none else some ((prevIndex + 1) % itemsLength)

/-- The ArrowUp branch:
`setSelectedIndex(prev => (prev + items.length - 1) % items.length)`,
again with `x % 0 = NaN` modelled as `none`.  (For `itemsLength = 0` and
`prevIndex = 0` the JavaScript numerator is `-1` and `-1 % 0` is also
`NaN`.) -/
def arrowUpIndex (itemsLength prevIndex : Nat) : Option Nat :=
  if itemsLength = 0 then none else some ((prevIndex + itemsLength - 1) % itemsLength)

/-- One ArrowDown keypress acting on a possibly-already-`NaN` selected index
(`NaN` propagates through JavaScript arithmetic). -/
def arrowDownStep (itemsLength : Nat) (o : Option Nat) : Option Nat :=
  o.bind (arrowDownIndex itemsLength)

/-- The `items` prop as React sees it: the list plus the identity of the
array object holding it.  `setSlashMenuItems(filtered)` always stores a
freshly allocated array, so each recomputation carries a new `refId`. -/
structure ItemsProp where
  refId : Nat
  items : List SlashCommandItem
deriving DecidableEq, Repr

/-- The candidate recomputation effect of `editor.tsx` (dependencies
`[slashMenuQuery, isSlashMenuOpen]`): refilters the registry and stores the
result as a new array object. -/
def recomputeCandidates (prev : ItemsProp) (q : String) : ItemsProp :=
  { refId := prev.refId + 1, items := filterCommands slashCommands q }

/-- The selected-index-reset effect of `slashCommandMenu.tsx`
(`useEffect(() => { setSelectedIndex(0) }, [items])`) composed with one
candidate recomputation: React re-runs the effect exactly when the `items`
dependency changes under `Object.is`, i.e. when the array reference
differs. -/
def selectedIndexAfterUpdate (prev : ItemsProp) (selectedIndex : Nat)
    (q : String) : ItemsProp × Nat :=
  let curr := recomputeCandidates prev q
  if curr.refId = prev.refId then (curr, selectedIndex) else (curr, 0)

/-- What `createInternalSlashCommandInputRule`'s handler emits on a match of
`(?:^|\s)\/([\w]*)$`: the captured query, the adjusted trigger range
(window-relative positions), and `match[0].trimStart()`. -/
structure TriggerActivation where
  query : List Char
  rangeFrom : Nat
  rangeTo : Nat
  matchedText : List Char
deriving DecidableEq, Repr

/-- The slash-command input rule of `slashCommandInputRule.ts` applied to the
text window from the block start to the caret.  The regex
`(?:^|\s)\/([\w]*)$` can match in exactly one way: the capture `[\w]*` must
cover the whole maximal word-character suffix of the window (the character
before the capture must be the non-word `'/'`), and the character before that
`'/'` must be `\s` whitespace or the window start.  The handler then sets
`triggerStartPosition = range.from + 1` only when `match[0].startsWith(" /")`
— i.e. only a literal space boundary is excluded from the emitted range —
and emits `query = match[1]`, `range = {triggerStartPosition, range.to}`,
`text = match[0].trimStart()`. -/
def slashTriggerMatch (text : List Char) : Option TriggerActivation :=
  let rtext := text.reverse
  let rquery := rtext.takeWhile wordChar
  match rtext.dropWhile wordChar with
  | [] => none
  | c :: rest =>
      if c = '/' then
        match rest with
        | [] =>
            some { query := rquery.reverse, rangeFrom := 0, rangeTo := text.length,
                   matchedText := '/' :: rquery.reverse }
        | b :: _ =>
            if jsWhitespaceChar b then
              let slashPos := text.length - rquery.length - 1
              let triggerFrom := if b = ' ' then slashPos else slashPos - 1
              some { query := rquery.reverse, rangeFrom := triggerFrom,
                     rangeTo := text.length, matchedText := '/' :: rquery.reverse }
            else none
      else none

/-- The external events that drive the menu state machine in `editor.tsx`:
an input-rule activation/re-fire (`openSlashMenu` plus the auto-close
effect), an explicit close (Escape, outside click, empty-Enter), and a
command selection (`handleCommandSelection`). -/
inductive MenuEvent where
  | trigger (q : String) (r : MenuRange) (p : MenuPosition)
  | requestClose
  | select (editorAvailable : Bool) (doc : List Char)
      (deleteThrows applyThrows : Bool) (item : SlashCommandItem)

/-- One step of the menu state machine. -/
def menuStep (st : MenuState) : MenuEvent → MenuState
  | MenuEvent.trigger q r p => updateQueryStep st q r p
  | MenuEvent.requestClose => closeSlashMenuAndFocusEditor st
  | MenuEvent.select e d dt ap item => (handleCommandSelection st e d dt ap item).state

/-- The menu state after a sequence of events from the initial state. -/
def runMenu (events : List MenuEvent) : MenuState :=
  events.foldl menuStep initialMenuState

/-- The concrete open menu state of the stale-range scenario: menu open on
query `"xyz"` with stored range `{from: 5, to: 8}`. -/
def throwScenarioState : MenuState :=
  { isSlashMenuOpen := true, slashMenuQuery := "xyz",
    slashMenuRange := some { fromPos := 5, toPos := 8 },
    slashMenuPosition := some { top := 0, left := 0, height := 0 },
    slashMenuItems := [heading1] }

/-- The document text of that scenario, with `'/'` at position 5. -/
def throwScenarioDoc : List Char := "abcd /xyz".toList

/-! ## Helper lemmas -/

/-- The filter predicate of `editor.tsx`, restated as the spec phrases it:
the query is a case-insensitive substring of the title or of some alias. -/
theorem matchesItem_eq_true_iff (q : String) (item : SlashCommandItem) :
    matchesItem q item = true ↔
      (lowerStr q <:+: lowerStr item.title ∨
        ∃ a ∈ item.aliases, lowerStr q <:+: lowerStr a) := by
  simp [matchesItem, isSubstrCI, List.any_eq_true]

/-- A character in JavaScript's `\s` class is neither a `\w` word character
nor the trigger character. -/
theorem jsWhitespaceChar_props (c : Char) (h : jsWhitespaceChar c = true) :
    wordChar c = false ∧ c ≠ '/' := by
  have hmem : c ∈ jsWhitespaceChars := by
    simpa [jsWhitespaceChar] using h
  fin_cases hmem <;> exact ⟨by decide, by decide⟩

/-- `takeWhile` stops exactly at the first failing element. -/
theorem takeWhile_append_of_all {p : Char → Bool} (l : List Char) (c : Char)
    (r : List Char) (hl : ∀ x ∈ l, p x = true) (hc : p c = false) :
    (l ++ c :: r).takeWhile p = l := by
  induction l with
  | nil => simp [List.takeWhile, hc]
  | cons a as ih =>
      have ha : p a = true := hl a (by simp)
      simp [List.takeWhile, ha, ih (fun x hx => hl x (by simp [hx]))]

/-- `dropWhile` drops exactly up to the first failing element. -/
theorem dropWhile_append_of_all {p : Char → Bool} (l : List Char) (c : Char)
    (r : List Char) (hl : ∀ x ∈ l, p x = true) (hc : p c = false) :
    (l ++ c :: r).dropWhile p = c :: r := by
  induction l with
  | nil => simp [List.dropWhile, hc]
  | cons a as ih =>
      have ha : p a = true := hl a (by simp)
      simp [List.dropWhile, ha, ih (fun x hx => hl x (by simp [hx]))]

/-- The first character of `doc.textBetween(a, b)` is the character at
position `a`, provided the range is non-degenerate. -/
theorem head?_textBetween (doc : List Char) (a b : Nat) (h : a < b) :
    (textBetween doc a b).head? = doc[a]? := by
  unfold textBetween
  obtain ⟨k, hk⟩ : ∃ k, b - a = k + 1 := ⟨b - a - 1, by omega⟩
  rw [hk, ← List.head?_drop]
  cases doc.drop a with
  | nil => rfl
  | cons x xs => rfl

/-- `closeSlashMenuAndFocusEditor` either leaves the state unchanged (early
return on a closed menu) or yields the initial state. -/
theorem close_result (st : MenuState) :
    closeSlashMenuAndFocusEditor st = st ∨
      closeSlashMenuAndFocusEditor st = initialMenuState := by
  unfold closeSlashMenuAndFocusEditor
  split
  · exact Or.inl rfl
  · exact Or.inr rfl

/-- The execution protocol leaves the menu state alone or routes it through
`closeSlashMenuAndFocusEditor`. -/
theorem handleCommandSelection_state (st : MenuState) (e : Bool)
    (d : List Char) (dt ap : Bool) (item : SlashCommandItem) :
    (handleCommandSelection st e d dt ap item).state = st ∨
      (handleCommandSelection st e d dt ap item).state =
        closeSlashMenuAndFocusEditor st := by
  unfold handleCommandSelection
  rcases hr : st.slashMenuRange with _ | r <;> cases e <;> simp
  split
  · exact Or.inl rfl
  · split
    · exact Or.inl rfl
    · exact Or.inr rfl

/-- Every state-machine step preserves the closed-implies-defaults
invariant. -/
theorem menuStep_preserves_inv (st : MenuState) (e : MenuEvent)
    (h : st.isSlashMenuOpen = false → st = initialMenuState) :
    (menuStep st e).isSlashMenuOpen = false → menuStep st e = initialMenuState := by
  have hclose : ∀ s : MenuState, (s.isSlashMenuOpen = false → s = initialMenuState) →
      (closeSlashMenuAndFocusEditor s).isSlashMenuOpen = false →
        closeSlashMenuAndFocusEditor s = initialMenuState := by
    intro s hs
    rcases close_result s with hc | hc <;> rw [hc]
    · exact hs
    · intro _; rfl
  cases e with
  | trigger q r p =>
      simp only [menuStep]
      unfold updateQueryStep menuAutoCloseEffect
      split
      · exact hclose _ (by intro hfalse; simp [openSlashMenu] at hfalse)
      · intro hfalse
        simp [openSlashMenu] at hfalse
  | requestClose =>
      simp only [menuStep]
      exact hclose st h
  | select ea d dt ap item =>
      simp only [menuStep]
      rcases handleCommandSelection_state st ea d dt ap item with hs | hs <;> rw [hs]
      · exact h
      · exact hclose st h

/-- The closed-implies-defaults invariant holds in every reachable state. -/
theorem runMenu_inv (evs : List MenuEvent) :
    (runMenu evs).isSlashMenuOpen = false → runMenu evs = initialMenuState := by
  suffices h : ∀ st : MenuState, (st.isSlashMenuOpen = false → st = initialMenuState) →
      ((evs.foldl menuStep st).isSlashMenuOpen = false →
        evs.foldl menuStep st = initialMenuState) by
    exact h initialMenuState (fun _ => rfl)
  induction evs with
  | nil => exact fun st h => h
  | cons e es ih => exact fun st h => ih (menuStep st e) (menuStep_preserves_inv st e h)

/-- Iterating the ArrowDown step adds the iteration count modulo the list
length. -/
theorem arrowDownStep_iterate (n : Nat) (hn : n ≠ 0) (i : Nat) (hi : i < n) :
    ∀ k, (arrowDownStep n)^[k] (some i) = some ((i + k) % n) := by
  intro k
  induction k with
  | zero => simp [Nat.mod_eq_of_lt hi]
  | succ k ih =>
      have key : ((i + k) % n + 1) % n = (i + (k + 1)) % n := by
        rw [Nat.mod_add_mod, Nat.add_assoc]
      rw [Function.iterate_succ_apply', ih]
      simp [arrowDownStep, arrowDownIndex, hn, key]

/-! ## Claim theorems -/

/-- C2. For every registry `R` and query `q`, the candidate filter returns
exactly the first at-most-10 descriptors of `R` (in `R`'s relative order)
for which `q` is a case-insensitive substring of the title or of some alias,
and for the empty query it returns the first `min(10, |R|)` descriptors. -/
theorem filter_correctness (R : List SlashCommandItem) (q : String) :
    filterCommands R q = (R.filter (matchesItem q)).take 10
  ∧ List.Sublist (filterCommands R q) R
  ∧ (∀ item ∈ filterCommands R q,
       lowerStr q <:+: lowerStr item.title ∨
         ∃ a ∈ item.aliases, lowerStr q <:+: lowerStr a)
  ∧ (filterCommands R q).length ≤ 10
  ∧ filterCommands R "" = R.take 10 := by
  refine ⟨rfl, ?_, ?_, ?_, ?_⟩
  · exact (List.take_sublist _ _).trans (List.filter_sublist _)
  · intro item hmem
    have h1 : item ∈ R.filter (matchesItem q) := List.mem_of_mem_take hmem
    have h2 : matchesItem q item = true := List.of_mem_filter h1
    exact (matchesItem_eq_true_iff q item).mp h2
  · exact List.length_take_le _ _
  · unfold filterCommands
    have hall : R.filter (matchesItem "") = R := by
      refine List.filter_eq_self.mpr (fun a _ => ?_)
      simp [matchesItem, isSubstrCI, lowerStr, List.nil_infix]
    rw [hall]

/-- C2 witness: at the concrete registry and query `"h1"`, the filter's
members satisfy the case-insensitive-substring property (here via the alias
`"h1"` of `heading1`). -/
theorem filter_correctness_witness :
    lowerStr "h1" <:+: lowerStr heading1.title ∨
      ∃ a ∈ heading1.aliases, lowerStr "h1" <:+: lowerStr a :=
  (filter_correctness slashCommands "h1").2.2.1 heading1 (by decide)

/-- C3. From an open state with non-empty candidates, a query update whose
recomputed candidate list is empty and whose query is non-empty closes the
menu, while an update to the empty query never auto-closes (its candidate
list is the non-empty head of the registry). -/
theorem auto_close_law (st : MenuState) (q : String) (r : MenuRange)
    (p : MenuPosition) (hprev : st.slashMenuItems ≠ []) :
    (q ≠ "" → filterCommands slashCommands q = [] →
       (updateQueryStep st q r p).isSlashMenuOpen = false)
  ∧ (q = "" → (updateQueryStep st q r p).isSlashMenuOpen = true) := by
  have hlen : 0 < st.slashMenuItems.length := List.length_pos.mpr hprev
  constructor
  · intro _ hempty
    simp [updateQueryStep, menuAutoCloseEffect, openSlashMenu, hempty, hlen,
          closeSlashMenuAndFocusEditor, initialMenuState]
  · intro hq
    subst hq
    have hne : filterCommands slashCommands "" ≠ [] := by decide
    simp [updateQueryStep, menuAutoCloseEffect, openSlashMenu,
          List.length_eq_zero, hne]

/-- C3 witness: concretely, updating from one candidate to the non-matching
query `"xyz"` closes the menu. -/
theorem auto_close_law_witness :
    (updateQueryStep
      { isSlashMenuOpen := true, slashMenuQuery := "xy",
        slashMenuRange := some { fromPos := 5, toPos := 7 },
        slashMenuPosition := some { top := 0, left := 0, height := 0 },
        slashMenuItems := [heading1] }
      "xyz" { fromPos := 5, toPos := 8 }
      { top := 0, left := 0, height := 0 }).isSlashMenuOpen = false :=
  (auto_close_law _ "xyz" _ _ (by decide)).1 (by decide) (by decide)

/-- C4. For a candidate list of length `n ≥ 1` and a valid starting index
`i < n`, `n` ArrowDown steps return to `i`; ArrowUp from index 0 yields
`n - 1`; and every single step stays inside `[0, n)`. -/
theorem selection_wraparound (n i : Nat) (hn : 1 ≤ n) (hi : i < n) :
    (arrowDownStep n)^[n] (some i) = some i
  ∧ arrowUpIndex n 0 = some (n - 1)
  ∧ (∀ j k, arrowDownIndex n j = some k → k < n)
  ∧ (∀ j k, arrowUpIndex n j = some k → k < n) := by
  have hn' : n ≠ 0 := by omega
  refine ⟨?_, ?_, ?_, ?_⟩
  · rw [arrowDownStep_iterate n hn' i hi n, Nat.add_mod_right, Nat.mod_eq_of_lt hi]
  · simp only [arrowUpIndex, if_neg hn', Nat.zero_add]
    rw [Nat.mod_eq_of_lt (by omega)]
  · intro j k hk
    simp only [arrowDownIndex, if_neg hn', Option.some.injEq] at hk
    rw [← hk]
    exact Nat.mod_lt _ (by omega)
  · intro j k hk
    simp only [arrowUpIndex, if_neg hn', Option.some.injEq] at hk
    rw [← hk]
    exact Nat.mod_lt _ (by omega)

/-- C4 witness: with three candidates, three ArrowDown steps from index 1
return to 1, and ArrowUp from 0 gives 2. -/
theorem selection_wraparound_witness :
    (arrowDownStep 3)^[3] (some 1) = some 1 ∧ arrowUpIndex 3 0 = some 2 := by
  have h := selection_wraparound 3 1 (by decide) (by decide)
  exact ⟨h.1, h.2.1⟩

/-- C5 (evaluation at the failing input). With an empty candidate list the
ArrowDown/ArrowUp handlers are not a no-op: the source computes
`(prevIndex ± 1) % items.length` with `items.length = 0`, which in
JavaScript is `NaN` (modelled `none`), not the unchanged index `0`. -/
theorem arrow_keys_empty_list_NaN :
    arrowDownIndex 0 0 = none ∧ arrowUpIndex 0 0 = none ∧
    arrowDownIndex 0 0 ≠ some 0 ∧ arrowUpIndex 0 0 ≠ some 0 := by decide

/-- C1 (evaluation at the failing input). When the selected descriptor's
apply/delete step throws, `handleCommandSelection` does not reach
`closeSlashMenuAndFocusEditor`: the menu state is left open and unchanged,
no close event and no refocus event occur, and the exception escapes. -/
theorem execution_throw_leaves_menu_open :
    ((handleCommandSelection throwScenarioState true throwScenarioDoc
        false true heading1).state.isSlashMenuOpen = true)
  ∧ ((handleCommandSelection throwScenarioState true throwScenarioDoc
        false true heading1).state = throwScenarioState)
  ∧ ExecEvent.closeMenu ∉
      (handleCommandSelection throwScenarioState true throwScenarioDoc
        false true heading1).trace
  ∧ ExecEvent.focusEditor ∉
      (handleCommandSelection throwScenarioState true throwScenarioDoc
        false true heading1).trace
  ∧ (handleCommandSelection throwScenarioState true throwScenarioDoc
        false true heading1).threw = true := by decide

/-- C6. With an editor instance, a stored range, and no throwing step, the
execution protocol performs, in order: one deletion of the range (extended
left by one exactly when the character immediately preceding `range.from`
is the trigger character `'/'`), the descriptor's command at that range,
the menu-state reset, and the refocus; the final state is the closed
default. -/
theorem execution_protocol_order (st : MenuState) (r : MenuRange)
    (doc : List Char) (item : SlashCommandItem)
    (hopen : st.isSlashMenuOpen = true) (hr : st.slashMenuRange = some r)
    (h1 : 1 ≤ r.fromPos) (hft : r.fromPos ≤ r.toPos) :
    handleCommandSelection st true doc false false item =
      { state := initialMenuState,
        doc := doc.take (extendedFrom doc r) ++ doc.drop r.toPos,
        trace := [ExecEvent.deleteRange (extendedFrom doc r) r.toPos,
                  ExecEvent.applyCommand item.id (extendedFrom doc r) r.toPos,
                  ExecEvent.closeMenu, ExecEvent.focusEditor],
        threw := false } := by
  have hhead : (textBetween doc (r.fromPos - 1) r.toPos).head? = doc[r.fromPos - 1]? :=
    head?_textBetween doc _ _ (by omega)
  simp only [handleCommandSelection, hr, hhead, extendedFrom, closeTrace,
             closeSlashMenuAndFocusEditor, hopen, Bool.false_eq_true,
             if_false, List.cons_append, List.nil_append]
  rfl

/-- C6 witness (Scenario D): with range `{from: 5, to: 8}` over the document
`"abcd /xyz"` (the `'/'` at position 5 is inside the range, so no extension
happens), selecting `heading1` deletes range 5–8 as one mutation, then
applies the `heading1` command at that position, then closes and refocuses. -/
theorem execution_protocol_order_witness :
    handleCommandSelection
      { isSlashMenuOpen := true, slashMenuQuery := "xyz",
        slashMenuRange := some { fromPos := 5, toPos := 8 },
        slashMenuPosition := some { top := 0, left := 0, height := 0 },
        slashMenuItems := [heading1] }
      true ("abcd /xyz".toList) false false heading1 =
    { state := initialMenuState, doc := "abcd z".toList,
      trace := [ExecEvent.deleteRange 5 8, ExecEvent.applyCommand "heading1" 5 8,
                ExecEvent.closeMenu, ExecEvent.focusEditor],
      threw := false } := by
  have h := execution_protocol_order
    { isSlashMenuOpen := true, slashMenuQuery := "xyz",
      slashMenuRange := some { fromPos := 5, toPos := 8 },
      slashMenuPosition := some { top := 0, left := 0, height := 0 },
      slashMenuItems := [heading1] }
    { fromPos := 5, toPos := 8 } ("abcd /xyz".toList) heading1
    rfl rfl (by decide) (by decide)
  rw [h]
  decide

/-- C10. Selecting a candidate while the stored range is `null` or the
editor instance is unavailable performs no document mutation at all — the
trace holds only the close and refocus events, the document is unchanged —
and the menu still transitions to the closed default state. -/
theorem select_without_editor_or_range (st : MenuState) (e : Bool)
    (doc : List Char) (dt ap : Bool) (item : SlashCommandItem)
    (hopen : st.isSlashMenuOpen = true)
    (h : st.slashMenuRange = none ∨ e = false) :
    handleCommandSelection st e doc dt ap item =
      { state := initialMenuState, doc := doc,
        trace := [ExecEvent.closeMenu, ExecEvent.focusEditor],
        threw := false } := by
  rcases h with h | h
  · cases e <;>
      simp [handleCommandSelection, h, closeTrace, hopen,
            closeSlashMenuAndFocusEditor]
  · subst h
    rcases hrr : st.slashMenuRange with _ | r <;>
      simp [handleCommandSelection, hrr, closeTrace, hopen,
            closeSlashMenuAndFocusEditor]

/-- C10 witness: a concrete selection with a `null` stored range leaves the
document untouched and closes the menu. -/
theorem select_without_editor_or_range_witness :
    handleCommandSelection
      { isSlashMenuOpen := true, slashMenuQuery := "ab",
        slashMenuRange := none, slashMenuPosition := none,
        slashMenuItems := [heading1] }
      false ("x/ab".toList) false false heading1 =
      { state := initialMenuState, doc := "x/ab".toList,
        trace := [ExecEvent.closeMenu, ExecEvent.focusEditor],
        threw := false } :=
  select_without_editor_or_range _ false _ false false heading1 rfl (Or.inl rfl)

/-- C9. `closeSlashMenuAndFocusEditor` is idempotent, leaves an
already-closed state unchanged, resets every field of an open state to its
closed default, and in every reachable state a closed menu has all fields at
their defaults. -/
theorem close_idempotent_closed_invariant :
    (∀ st : MenuState,
       closeSlashMenuAndFocusEditor (closeSlashMenuAndFocusEditor st) =
         closeSlashMenuAndFocusEditor st)
  ∧ (∀ st : MenuState, st.isSlashMenuOpen = false →
       closeSlashMenuAndFocusEditor st = st)
  ∧ (∀ st : MenuState, st.isSlashMenuOpen = true →
       closeSlashMenuAndFocusEditor st = initialMenuState)
  ∧ (∀ evs : List MenuEvent, (runMenu evs).isSlashMenuOpen = false →
       runMenu evs = initialMenuState) := by
  refine ⟨?_, ?_, ?_, runMenu_inv⟩
  · intro st
    rcases close_result st with h | h <;> rw [h]
    · exact h
    · decide
  · intro st h
    simp [closeSlashMenuAndFocusEditor, h]
  · intro st h
    simp [closeSlashMenuAndFocusEditor, h]

/-- C9 witness: after an activation followed by a close, the reachable
closed state is exactly the all-defaults initial state. -/
theorem close_idempotent_closed_invariant_witness :
    runMenu [MenuEvent.trigger "h" { fromPos := 1, toPos := 3 }
               { top := 0, left := 0, height := 0 },
             MenuEvent.requestClose] = initialMenuState :=
  close_idempotent_closed_invariant.2.2.2 _ (by decide)

/-- Generic boundary case of the trigger rule: for a window
`pre ++ b :: '/' :: query` with `b` any `\s` whitespace character and
`query` all word characters, the rule activates with the captured query;
the emitted range starts at the `'/'` when `b` is a literal space (the only
boundary the handler's `startsWith(" /")` test strips) and at `b` itself for
every other whitespace boundary. -/
theorem slashTriggerMatch_boundary (pre q : List Char) (b : Char)
    (hq : ∀ c ∈ q, wordChar c = true) (hb : jsWhitespaceChar b = true) :
    slashTriggerMatch (pre ++ b :: '/' :: q) =
      some { query := q,
             rangeFrom := if b = ' ' then pre.length + 1 else pre.length,
             rangeTo := pre.length + 2 + q.length,
             matchedText := '/' :: q } := by
  have hql : ∀ x ∈ q.reverse, wordChar x = true :=
    fun x hx => hq x (List.mem_reverse.mp hx)
  have hslash : wordChar '/' = false := by decide
  have hrev : (pre ++ b :: '/' :: q).reverse = q.reverse ++ '/' :: b :: pre.reverse := by
    simp
  simp only [slashTriggerMatch, hrev,
             takeWhile_append_of_all _ _ _ hql hslash,
             dropWhile_append_of_all _ _ _ hql hslash, if_true]
  rw [if_pos hb]
  simp only [List.reverse_reverse, List.length_append, List.length_cons,
             List.length_reverse, Option.some.injEq, TriggerActivation.mk.injEq]
  refine ⟨trivial, ?_, by omega, trivial⟩
  by_cases hbsp : b = ' '
  · rw [if_pos hbsp, if_pos hbsp]
    omega
  · rw [if_neg hbsp, if_neg hbsp]
    omega

/-- C7 (amended). The trigger rule activates exactly on a window matching
`(?:^|\s)\/([\w]*)$`: at the window start or after a `\s` boundary, a `'/'`
followed by only word characters up to the caret. The emitted query is the
captured word characters. The emitted range covers the trigger character
and query when the boundary is the window start or a literal space, but
*includes* the boundary character when the boundary is any other whitespace
character (the handler strips only `" /"`). A `'/'` preceded by a word
character never activates, and a window ending in whitespace never
activates. -/
theorem trigger_rule_characterization (pre q : List Char) (b : Char)
    (hq : ∀ c ∈ q, wordChar c = true) :
    (slashTriggerMatch (pre ++ ' ' :: '/' :: q) =
       some { query := q, rangeFrom := pre.length + 1,
              rangeTo := pre.length + 2 + q.length, matchedText := '/' :: q })
  ∧ (jsWhitespaceChar b = true → b ≠ ' ' →
       slashTriggerMatch (pre ++ b :: '/' :: q) =
         some { query := q, rangeFrom := pre.length,
                rangeTo := pre.length + 2 + q.length, matchedText := '/' :: q })
  ∧ (slashTriggerMatch ('/' :: q) =
       some { query := q, rangeFrom := 0, rangeTo := q.length + 1,
              matchedText := '/' :: q })
  ∧ (wordChar b = true → slashTriggerMatch (pre ++ b :: '/' :: q) = none)
  ∧ (jsWhitespaceChar b = true → slashTriggerMatch (pre ++ [b]) = none) := by
  have hql : ∀ x ∈ q.reverse, wordChar x = true :=
    fun x hx => hq x (List.mem_reverse.mp hx)
  have hslash : wordChar '/' = false := by decide
  refine ⟨?_, ?_, ?_, ?_, ?_⟩
  · rw [slashTriggerMatch_boundary pre q ' ' hq (by decide), if_pos rfl]
  · intro hb hbs
    rw [slashTriggerMatch_boundary pre q b hq hb, if_neg hbs]
  · have hrev : ('/' :: q).reverse = q.reverse ++ '/' :: [] := by simp
    simp only [slashTriggerMatch, hrev,
               takeWhile_append_of_all _ _ _ hql hslash,
               dropWhile_append_of_all _ _ _ hql hslash, if_true]
    simp [List.reverse_reverse]
  · intro hwb
    have hbneg : jsWhitespaceChar b = false := by
      cases hjs : jsWhitespaceChar b
      · rfl
      · exact absurd (jsWhitespaceChar_props b hjs).1 (by simp [hwb])
    have hrev : (pre ++ b :: '/' :: q).reverse = q.reverse ++ '/' :: b :: pre.reverse := by
      simp
    simp only [slashTriggerMatch, hrev,
               takeWhile_append_of_all _ _ _ hql hslash,
               dropWhile_append_of_all _ _ _ hql hslash, if_true]
    rw [if_neg (by simp [hbneg])]
  · intro hb
    obtain ⟨hword, hne⟩ := jsWhitespaceChar_props b hb
    have hrev : (pre ++ [b]).reverse = b :: pre.reverse := by simp
    simp only [slashTriggerMatch, hrev, List.dropWhile_cons, hword,
               Bool.false_eq_true, if_false]
    rw [if_neg hne]

/-- C7 witness: a space boundary is excluded from the emitted range
(`"a /b"` activates with range 2–4), while a tab boundary stays inside it
(`"a\t/b"` activates with range 1–4). -/
theorem trigger_rule_characterization_witness :
    slashTriggerMatch ['a', ' ', '/', 'b'] =
      some { query := ['b'], rangeFrom := 2, rangeTo := 4,
             matchedText := ['/', 'b'] }
  ∧ slashTriggerMatch ['a', '\t', '/', 'b'] =
      some { query := ['b'], rangeFrom := 1, rangeTo := 4,
             matchedText := ['/', 'b'] } := by
  have h := trigger_rule_characterization ['a'] ['b'] '\t' (by decide)
  exact ⟨h.1, h.2.1 (by decide) (by decide)⟩

/-- C7 counterexample: on the window `"\t/a"` the rule activates and emits
range start 0 — the position of the tab boundary — not position 1 of the
`'/'`, so the emitted range does not exclude this leading boundary
whitespace as the claim states. -/
theorem trigger_range_boundary_counterexample :
    slashTriggerMatch ['\t', '/', 'a'] =
      some { query := ['a'], rangeFrom := 0, rangeTo := 3,
             matchedText := ['/', 'a'] }
  ∧ (slashTriggerMatch ['\t', '/', 'a']).map TriggerActivation.rangeFrom ≠ some 1 := by
  decide

/-- C8 (amended). Every query update recomputes the candidates into a fresh
array object, so the `[items]`-keyed reset effect always fires: the selected
index is reset to 0 on every update, whether or not the recomputed sequence
is identical to the previous one. -/
theorem selected_index_always_resets (prev : ItemsProp) (sel : Nat) (q : String) :
    (selectedIndexAfterUpdate prev sel q).2 = 0
  ∧ (selectedIndexAfterUpdate prev sel q).1.items = filterCommands slashCommands q := by
  have hne : prev.refId + 1 ≠ prev.refId := by omega
  simp [selectedIndexAfterUpdate, recomputeCandidates, hne]

/-- C8 counterexample: updating the query from `"hea"` to `"head"`
recomputes a candidate sequence identical in length and content to the
previous one, yet the selected index 2 is reset to 0 rather than
preserved. -/
theorem selected_index_reset_counterexample :
    (recomputeCandidates
        { refId := 0, items := filterCommands slashCommands "hea" } "head").items
      = filterCommands slashCommands "hea"
  ∧ (selectedIndexAfterUpdate
        { refId := 0, items := filterCommands slashCommands "hea" } 2 "head").2 = 0
  ∧ (2 : Nat) ≠ 0 := by decide
